import Mathlib

/-!
Verification of the classification-and-transform algorithm of the /bfhl
endpoint (src/server.js of bajaj-internship-api).

Strings are modelled as lists of characters (`Str`), which is faithful
here because every character-level operation the code performs (regex
character classes, toUpperCase/toLowerCase, split/reverse/join) acts
per UTF-16 code unit, and the only strings transformed character by
character are purely ASCII (they match [a-zA-Z]+).

JavaScript numbers are IEEE-754 binary64 doubles.  All numbers the
handler manipulates are non-negative integers, so a double value is
modelled as the natural number it denotes, and every arithmetic result
is pushed through `roundDouble`, round-to-nearest-even at 53 significant
bits — exactly the binary64 rounding of an integer in the finite range.
`parseInt(item)` on a string matching the regex digits-only pattern is
the exact decimal value rounded to a double (`jsParseInt`), and `a + b`
on doubles is the exact sum rounded (`jsAdd`).
-/

/-- Character strings as lists of characters. -/
abbrev Str := List Char

/-- ASCII digit test: code points 48..57 are the characters 0..9, the
character class of the regex used at src/server.js line 49. -/
def isDigitChar (c : Char) : Bool := 48 ≤ c.toNat && c.toNat ≤ 57

/-- ASCII letter test: code points 97..122 are a..z and 65..90 are A..Z,
the character class [a-zA-Z] of the regex at src/server.js line 60. -/
def isAlphaChar (c : Char) : Bool :=
  (97 ≤ c.toNat && c.toNat ≤ 122) || (65 ≤ c.toNat && c.toNat ≤ 90)

/-- The test of the anchored regex matching one or more digits:
the string is non-empty and every character is an ASCII digit. -/
def matchesDigits (s : Str) : Bool := !s.isEmpty && s.all isDigitChar

/-- The test of the anchored regex matching one or more ASCII letters. -/
def matchesAlpha (s : Str) : Bool := !s.isEmpty && s.all isAlphaChar

/-- Numeric value of an ASCII digit character. -/
def digitVal (c : Char) : Nat := c.toNat - 48

/-- The exact non-negative integer denoted by a digits-only string. -/
def parseIntExact (s : Str) : Nat := s.foldl (fun a c => 10 * a + digitVal c) 0

/-- Number of halvings of n needed to go below 2^53, computed with
explicit fuel so that it reduces by kernel computation; for n of bit
length 53 + e this is e, the exponent of the binary64 grid spacing
(unit in the last place) in the binade of n. -/
def ulpExp (fuel n : Nat) : Nat :=
  match fuel with
  | 0 => 0
  | fuel + 1 => if n < 2 ^ 53 then 0 else ulpExp fuel (n / 2) + 1

/-- Round a non-negative integer to the nearest IEEE-754 binary64 value
(round-to-nearest, ties to even), returned as the integer the double
denotes.  Integers below 2^53 are exactly representable and unchanged;
above, the value is rounded to the grid of multiples of 2^e where e is
the bit length minus 53.  Faithful to binary64 for every value below the
overflow threshold near 2^1024; all theorems below stay far under it. -/
def roundDouble (n : Nat) : Nat :=
  if n < 2 ^ 53 then n
  else
    let p := 2 ^ ulpExp n n
    let q := n / p
    let r := n % p
    if r < p / 2 then q * p
    else if p / 2 < r then (q + 1) * p
    else if q % 2 == 0 then q * p else (q + 1) * p

/-- Model of JavaScript parseInt(item) for a digits-only item:
the exact decimal value, rounded to a double (src/server.js line 50). -/
def jsParseInt (s : Str) : Nat := roundDouble (parseIntExact s)

/-- Model of JavaScript + on two non-negative integer doubles:
the exact sum, rounded to a double (src/server.js line 51). -/
def jsAdd (a b : Nat) : Nat := roundDouble (a + b)

/-- JavaScript String(n) for a non-negative integer double in the range
used here: its decimal digit string. -/
def decimalRepr (n : Nat) : Str := Nat.toDigits 10 n

/-- toUpperCase on a purely ASCII-alphabetic string: uppercase each
character (src/server.js line 61). -/
def upperStr (s : Str) : Str := s.map Char.toUpper

/-- The mutable state of the handler loop of src/server.js lines 41-68:
the four response lists, the running sum, and the allAlphabets list that
feeds generateConcatString. -/
structure LoopState where
  odd_numbers : List Str
  even_numbers : List Str
  alphabets : List Str
  special_characters : List Str
  sum : Nat
  allAlphabets : List Str
  deriving Repr, DecidableEq

/-- The state before the loop: empty lists and sum 0. -/
def initState : LoopState := ⟨[], [], [], [], 0, []⟩

/-- One iteration of the loop of src/server.js lines 45-68: digits-only
items are parsed, added to the sum and pushed to even_numbers or
odd_numbers by parity of the parsed value; otherwise letters-only items
are pushed uppercased to alphabets and in original case to allAlphabets;
everything else goes to special_characters. -/
def step (st : LoopState) (item : Str) : LoopState :=
  if matchesDigits item then
    let num := jsParseInt item
    if num % 2 == 0 then
      { st with even_numbers := st.even_numbers ++ [item], sum := jsAdd st.sum num }
    else
      { st with odd_numbers := st.odd_numbers ++ [item], sum := jsAdd st.sum num }
  else if matchesAlpha item then
    { st with alphabets := st.alphabets ++ [upperStr item],
              allAlphabets := st.allAlphabets ++ [item] }
  else
    { st with special_characters := st.special_characters ++ [item] }

/-- Alternating re-casing loop of generateConcatString
(src/server.js lines 96-103): the flag says whether the current index is
even; even index characters are uppercased, odd index lowercased. -/
def recase (up : Bool) : Str → Str
  | [] => []
  | c :: cs => (if up then c.toUpper else c.toLower) :: recase (!up) cs

/-- generateConcatString (src/server.js lines 88-106): join the collected
alphabetic items, reverse the characters, then apply alternating caps
starting uppercase at index 0. -/
def generateConcatString (alphabets : List Str) : Str :=
  recase true (List.reverse (List.flatten alphabets))

/-- The classification result assembled by the handler
(src/server.js lines 28-74), restricted to the computed fields; the
identity fields come from the environment and carry no logic. -/
structure ClassificationResult where
  odd_numbers : List Str
  even_numbers : List Str
  alphabets : List Str
  special_characters : List Str
  sum : Str
  concat_string : Str
  deriving Repr, DecidableEq

/-- The core classify transform: run the loop over the items in order
(the for loop of src/server.js lines 45-68, modelled as a left fold),
then set sum to String(sum) and concat_string to
generateConcatString(allAlphabets) (lines 71-74). -/
def classify (items : List Str) : ClassificationResult :=
  let st := items.foldl step initState
  ⟨st.odd_numbers, st.even_numbers, st.alphabets, st.special_characters,
   decimalRepr st.sum, generateConcatString st.allAlphabets⟩

/-- The outcome of the /bfhl POST handler: a 400 rejection when the data
field is absent or not an array (src/server.js lines 20-25), else the
classification response. -/
inductive BfhlResult where
  | badRequest
  | ok (result : ClassificationResult)
  deriving Repr, DecidableEq

/-- The /bfhl POST handler (src/server.js lines 15-85): none models a
request body whose data field is missing or not an array. -/
def bfhlHandler (data : Option (List Str)) : BfhlResult :=
  match data with
  | none => BfhlResult.badRequest
  | some items => BfhlResult.ok (classify items)

/-- Predicate for items the loop sends to odd_numbers: digits-only and
the parsed double value is odd. -/
def isOddItem (s : Str) : Bool := matchesDigits s && !(jsParseInt s % 2 == 0)

/-- Predicate for items the loop sends to even_numbers: digits-only and
the parsed double value is even. -/
def isEvenItem (s : Str) : Bool := matchesDigits s && (jsParseInt s % 2 == 0)

/-- Predicate for items the loop sends to alphabets: not digits-only and
letters-only (the second branch of the first-match cascade). -/
def isAlphaItem (s : Str) : Bool := !matchesDigits s && matchesAlpha s

/-- Predicate for items the loop sends to special_characters: neither
digits-only nor letters-only. -/
def isSpecialItem (s : Str) : Bool := !matchesDigits s && !matchesAlpha s

/-- The doubles the loop adds to the running sum, in input order. -/
def numValues (items : List Str) : List Nat :=
  (items.filter matchesDigits).map jsParseInt

/-- The exact mathematical sum of the integers denoted by the
digits-only items. -/
def exactSum (items : List Str) : Nat :=
  ((items.filter matchesDigits).map parseIntExact).sum

/-- Re-casing loop as written in the specification: an explicit 0-based
index counter, uppercase at even index, lowercase at odd index.  This is
the spec-side definition for the refinement claim about concat_string. -/
def specRecaseGo (i : Nat) : Str → Str
  | [] => []
  | c :: cs => (if i % 2 == 0 then c.toUpper else c.toLower) :: specRecaseGo (i + 1) cs

/-- The concat-string derivation as the specification words it: take the
purely alphabetic items in input order and original case, concatenate,
reverse character-by-character, then re-case by index parity starting at
index 0.  Spec-side definition for the refinement claim. -/
def specConcatString (items : List Str) : Str :=
  specRecaseGo 0 (List.reverse (List.flatten (items.filter matchesAlpha)))

/-- Rounding is the identity on integers below 2^53, which binary64
represents exactly. -/
lemma roundDouble_small (n : Nat) (h : n < 2 ^ 53) : roundDouble n = n := by
  unfold roundDouble
  rw [if_pos h]

/-- parseInt is exact on values below 2^53. -/
lemma jsParseInt_small (s : Str) (h : parseIntExact s < 2 ^ 53) :
    jsParseInt s = parseIntExact s :=
  roundDouble_small _ h

/-- An ASCII digit character is not an ASCII letter. -/
lemma digit_not_alpha (c : Char) (h : isDigitChar c = true) : isAlphaChar c = false := by
  simp [isDigitChar] at h
  simp [isAlphaChar]
  omega

/-- A digits-only string never matches the letters-only pattern: the two
regexes of the classifier are mutually exclusive. -/
lemma matchesAlpha_of_digits (s : Str) (h : matchesDigits s = true) :
    matchesAlpha s = false := by
  cases s with
  | nil => simp [matchesDigits] at h
  | cons c cs =>
    simp [matchesDigits] at h
    simp [matchesAlpha]
    intro hc
    rw [digit_not_alpha c h.1] at hc
    cases hc

/-- The second branch of the first-match cascade fires exactly on the
letters-only items, because the first branch never captures one. -/
lemma isAlphaItem_eq (s : Str) : isAlphaItem s = matchesAlpha s := by
  unfold isAlphaItem
  cases hd : matchesDigits s with
  | false => simp
  | true => simp [matchesAlpha_of_digits s hd]

/-- The items the loop records for concat generation are exactly the
letters-only items, in order. -/
lemma filter_alphaItem (items : List Str) :
    items.filter isAlphaItem = items.filter matchesAlpha :=
  List.filter_congr fun s _ => isAlphaItem_eq s

/-- Characterization of the handler loop: starting from any state, the
fold appends to each response list the input items selected by the
corresponding branch predicate, in input order, and folds the parsed
doubles into the running sum. -/
lemma foldl_step_eq (items : List Str) (st : LoopState) :
    items.foldl step st =
      { odd_numbers := st.odd_numbers ++ items.filter isOddItem,
        even_numbers := st.even_numbers ++ items.filter isEvenItem,
        alphabets := st.alphabets ++ (items.filter isAlphaItem).map upperStr,
        special_characters := st.special_characters ++ items.filter isSpecialItem,
        sum := (numValues items).foldl jsAdd st.sum,
        allAlphabets := st.allAlphabets ++ items.filter isAlphaItem } := by
  induction items generalizing st with
  | nil => simp [numValues]
  | cons a l ih =>
    rw [List.foldl_cons, ih]
    cases hd : matchesDigits a with
    | true =>
      cases hp : (jsParseInt a % 2 == 0) with
      | true =>
        simp [step, hd, hp, isOddItem, isEvenItem, isAlphaItem, isSpecialItem,
          numValues, List.filter_cons, List.append_assoc]
      | false =>
        simp [step, hd, hp, isOddItem, isEvenItem, isAlphaItem, isSpecialItem,
          numValues, List.filter_cons, List.append_assoc]
    | false =>
      cases ha : matchesAlpha a with
      | true =>
        simp [step, hd, ha, isOddItem, isEvenItem, isAlphaItem, isSpecialItem,
          numValues, List.filter_cons, List.append_assoc]
      | false =>
        simp [step, hd, ha, isOddItem, isEvenItem, isAlphaItem, isSpecialItem,
          numValues, List.filter_cons, List.append_assoc]

/-- The classification result, field by field: each output list is a
filter (respectively a mapped filter) of the input, the sum is the fold
of the parsed doubles, and concat_string is generated from the recorded
alphabetic items. -/
lemma classify_fields (items : List Str) :
    classify items =
      ⟨items.filter isOddItem,
       items.filter isEvenItem,
       (items.filter isAlphaItem).map upperStr,
       items.filter isSpecialItem,
       decimalRepr ((numValues items).foldl jsAdd 0),
       generateConcatString (items.filter isAlphaItem)⟩ := by
  simp [classify, foldl_step_eq, initState]

/-- When the exact total stays below 2^53, every parse and every
intermediate addition in the loop is exact. -/
lemma sum_loop_exact (items : List Str) (acc : Nat)
    (h : acc + exactSum items < 2 ^ 53) :
    (numValues items).foldl jsAdd acc = acc + exactSum items := by
  induction items generalizing acc with
  | nil => simp [numValues, exactSum]
  | cons a l ih =>
    cases hd : matchesDigits a with
    | false =>
      have hv : numValues (a :: l) = numValues l := by
        simp [numValues, List.filter_cons, hd]
      have hs : exactSum (a :: l) = exactSum l := by
        simp [exactSum, List.filter_cons, hd]
      rw [hv, hs]
      rw [hs] at h
      exact ih acc h
    | true =>
      have hv : numValues (a :: l) = jsParseInt a :: numValues l := by
        simp [numValues, List.filter_cons, hd]
      have hs : exactSum (a :: l) = parseIntExact a + exactSum l := by
        simp [exactSum, List.filter_cons, hd]
      rw [hs] at h ⊢
      rw [hv]
      simp only [List.foldl_cons]
      rw [jsParseInt_small a (by omega)]
      have hadd : jsAdd acc (parseIntExact a) = acc + parseIntExact a :=
        roundDouble_small _ (by omega)
      rw [hadd, ih (acc + parseIntExact a) (by omega)]
      omega

/-- Re-casing never changes the number of characters. -/
lemma recase_length (l : Str) : ∀ b, (recase b l).length = l.length := by
  induction l with
  | nil => intro b; rfl
  | cons c cs ih => intro b; simp [recase, ih]

/-- The indexed re-casing of the spec equals the flag-passing loop of the
code, started with the parity of the initial index. -/
lemma specRecaseGo_eq (l : Str) : ∀ i, specRecaseGo i l = recase (i % 2 == 0) l := by
  induction l with
  | nil => intro i; rfl
  | cons c cs ih =>
    intro i
    simp only [specRecaseGo, recase, ih (i + 1)]
    rcases Nat.mod_two_eq_zero_or_one i with h | h <;>
      simp [Nat.add_mod, h]

/-- Exactly one branch predicate holds per item, so the four filtered
lists cover the input with the right total length. -/
lemma filter_lengths_partition (items : List Str) :
    (items.filter isOddItem).length + (items.filter isEvenItem).length
      + (items.filter isAlphaItem).length + (items.filter isSpecialItem).length
      = items.length := by
  induction items with
  | nil => rfl
  | cons a l ih =>
    cases hd : matchesDigits a with
    | true =>
      cases hp : (jsParseInt a % 2 == 0) with
      | true =>
        simp [List.filter_cons, isOddItem, isEvenItem, isAlphaItem, isSpecialItem, hd, hp]
        omega
      | false =>
        simp [List.filter_cons, isOddItem, isEvenItem, isAlphaItem, isSpecialItem, hd, hp]
        omega
    | false =>
      cases ha : matchesAlpha a with
      | true =>
        simp [List.filter_cons, isOddItem, isEvenItem, isAlphaItem, isSpecialItem, hd, ha]
        omega
      | false =>
        simp [List.filter_cons, isOddItem, isEvenItem, isAlphaItem, isSpecialItem, hd, ha]
        omega

/-- Claim C1 (amended to values below 2^53, where parseInt is exact):
each item is classified by the first matching rule: digits-only items go
to even_numbers or odd_numbers by the parity of the integer they denote,
otherwise letters-only items go uppercased to alphabets, and all
remaining items go unchanged to special_characters, each in input
order. -/
theorem claim_C1 (items : List Str)
    (h : ∀ s ∈ items, matchesDigits s = true → parseIntExact s < 2 ^ 53) :
    (classify items).odd_numbers
        = items.filter (fun s => matchesDigits s && !(parseIntExact s % 2 == 0))
      ∧ (classify items).even_numbers
        = items.filter (fun s => matchesDigits s && (parseIntExact s % 2 == 0))
      ∧ (classify items).alphabets = (items.filter matchesAlpha).map upperStr
      ∧ (classify items).special_characters
        = items.filter (fun s => !matchesDigits s && !matchesAlpha s) := by
  have hodd : items.filter isOddItem
      = items.filter (fun s => matchesDigits s && !(parseIntExact s % 2 == 0)) := by
    refine List.filter_congr fun s hs => ?_
    unfold isOddItem
    cases hd : matchesDigits s with
    | false => simp
    | true => rw [jsParseInt_small s (h s hs hd)]
  have heven : items.filter isEvenItem
      = items.filter (fun s => matchesDigits s && (parseIntExact s % 2 == 0)) := by
    refine List.filter_congr fun s hs => ?_
    unfold isEvenItem
    cases hd : matchesDigits s with
    | false => simp
    | true => rw [jsParseInt_small s (h s hs hd)]
  rw [classify_fields]
  exact ⟨hodd, heven, by rw [filter_alphaItem], rfl⟩

/-- Witness for claim C1 at the concrete input of scenario 2 of the
spec, whose numeric items are far below 2^53. -/
theorem claim_C1_witness :
    (∀ s ∈ ["2".data, "a".data, "y".data, "4".data, "&".data, "-".data,
        "*".data, "5".data], matchesDigits s = true → parseIntExact s < 2 ^ 53)
      ∧ ((classify ["2".data, "a".data, "y".data, "4".data, "&".data, "-".data,
            "*".data, "5".data]).odd_numbers
          = ["2".data, "a".data, "y".data, "4".data, "&".data, "-".data,
              "*".data, "5".data].filter
              (fun s => matchesDigits s && !(parseIntExact s % 2 == 0))
        ∧ (classify ["2".data, "a".data, "y".data, "4".data, "&".data, "-".data,
            "*".data, "5".data]).even_numbers
          = ["2".data, "a".data, "y".data, "4".data, "&".data, "-".data,
              "*".data, "5".data].filter
              (fun s => matchesDigits s && (parseIntExact s % 2 == 0))
        ∧ (classify ["2".data, "a".data, "y".data, "4".data, "&".data, "-".data,
            "*".data, "5".data]).alphabets
          = (["2".data, "a".data, "y".data, "4".data, "&".data, "-".data,
              "*".data, "5".data].filter matchesAlpha).map upperStr
        ∧ (classify ["2".data, "a".data, "y".data, "4".data, "&".data, "-".data,
            "*".data, "5".data]).special_characters
          = ["2".data, "a".data, "y".data, "4".data, "&".data, "-".data,
              "*".data, "5".data].filter
              (fun s => !matchesDigits s && !matchesAlpha s)) :=
  ⟨by decide, claim_C1 _ (by decide)⟩

/-- Counterexample to claim C1 as stated: the item 9007199254740993
denotes an odd integer, yet the code appends it to even_numbers and not
to odd_numbers, because parseInt returns the even double
9007199254740992 (the nearest binary64 value) and the parity test runs
on that double. -/
theorem claim_C1_counterexample :
    parseIntExact "9007199254740993".data % 2 = 1
      ∧ (classify ["9007199254740993".data]).odd_numbers = []
      ∧ (classify ["9007199254740993".data]).even_numbers
          = ["9007199254740993".data] := by decide

/-- Claim C2: the four output lists partition the input occurrences, so
their lengths add up to the input length. -/
theorem claim_C2 (items : List Str) :
    (classify items).odd_numbers.length + (classify items).even_numbers.length
      + (classify items).alphabets.length
      + (classify items).special_characters.length
      = items.length := by
  rw [classify_fields]
  have h := filter_lengths_partition items
  simpa using h

/-- Claim C3 (amended to exact totals below 2^53): the sum field is the
decimal representation of the exact mathematical sum of the integers
denoted by the digits-only items, and 0 with no such item. -/
theorem claim_C3 (items : List Str) (h : exactSum items < 2 ^ 53) :
    (classify items).sum = decimalRepr (exactSum items) := by
  rw [classify_fields]
  show decimalRepr ((numValues items).foldl jsAdd 0) = _
  rw [sum_loop_exact items 0 (by omega), Nat.zero_add]

/-- Witness for claim C3 at the concrete input of scenario 4 of the
spec. -/
theorem claim_C3_witness :
    exactSum ["10".data, "21".data] < 2 ^ 53
      ∧ (classify ["10".data, "21".data]).sum
          = decimalRepr (exactSum ["10".data, "21".data]) :=
  ⟨by decide, claim_C3 _ (by decide)⟩

/-- Counterexample to claim C3 as stated: for the single item
9007199254740993 the exact sum is 9007199254740993, but the code stores
parseInt of the item as a binary64 double, which rounds it to
9007199254740992, so the sum field is not the decimal representation of
the exact sum. -/
theorem claim_C3_counterexample :
    (classify ["9007199254740993".data]).sum
      ≠ decimalRepr (exactSum ["9007199254740993".data]) := by decide

/-- Claim C4, evaluated at the failing input: both items parse exactly
(9007199254740992 = 2^53 is representable), their exact sum is
9007199254740993, but the running sum is accumulated with binary64
addition, which rounds ties to even and silently returns
9007199254740992, so precision is lost within 1000 items. -/
theorem claim_C4_bug :
    exactSum ["9007199254740992".data, "1".data] = 9007199254740993
      ∧ (classify ["9007199254740992".data, "1".data]).sum
          = "9007199254740992".data
      ∧ "9007199254740992".data
          ≠ decimalRepr (exactSum ["9007199254740992".data, "1".data]) := by
  decide

/-- Claim C5: concat_string equals the spec derivation applied to the
purely alphabetic items: concatenate in input order and original case,
reverse character-by-character, then uppercase even 0-based indices and
lowercase odd ones; in particular it is empty when no alphabetic item
exists. -/
theorem claim_C5 (items : List Str) :
    (classify items).concat_string = specConcatString items := by
  rw [classify_fields]
  show generateConcatString (items.filter isAlphaItem) = _
  rw [generateConcatString, specConcatString, filter_alphaItem, specRecaseGo_eq]
  rfl

/-- Claim C6: each output list preserves input order; each is literally a
filter of the input sequence by its branch predicate (with alphabets
additionally uppercased). -/
theorem claim_C6 (items : List Str) :
    (classify items).odd_numbers = items.filter isOddItem
      ∧ (classify items).even_numbers = items.filter isEvenItem
      ∧ (classify items).alphabets = (items.filter matchesAlpha).map upperStr
      ∧ (classify items).special_characters = items.filter isSpecialItem := by
  rw [classify_fields]
  exact ⟨rfl, rfl, by rw [filter_alphaItem], rfl⟩

/-- Claim C7: the length of concat_string is the total character count
of the purely alphabetic items, since joining sums the lengths and
reversal and re-casing preserve length. -/
theorem claim_C7 (items : List Str) :
    (classify items).concat_string.length
      = ((items.filter matchesAlpha).map List.length).sum := by
  rw [classify_fields]
  show (generateConcatString (items.filter isAlphaItem)).length = _
  rw [generateConcatString, filter_alphaItem, recase_length, List.length_reverse]
  simp

/-- Claim C8: the classification of the first sample input of the spec,
evaluated on the embedded code. -/
theorem claim_C8 :
    classify ["a".data, "1".data, "334".data, "4".data, "R".data, "$".data]
      = ⟨["1".data], ["334".data, "4".data], ["A".data, "R".data], ["$".data],
         "339".data, "Ra".data⟩ := by decide

/-- Claim C9: on any valid input (an array of strings) the handler takes
no failure path: it always returns an ok response carrying a
classification result; termination is inherent since classify is a total
structurally recursive function. -/
theorem claim_C9 (items : List Str) :
    ∃ r : ClassificationResult, bfhlHandler (some items) = BfhlResult.ok r :=
  ⟨classify items, rfl⟩

/-- Claim C10: alphabets and concat_string depend only on the
subsequence of purely alphabetic items; two inputs agreeing on that
subsequence get identical alphabets and concat_string, so numeric and
special items never influence either output. -/
theorem claim_C10 (xs ys : List Str)
    (h : xs.filter matchesAlpha = ys.filter matchesAlpha) :
    (classify xs).alphabets = (classify ys).alphabets
      ∧ (classify xs).concat_string = (classify ys).concat_string := by
  rw [classify_fields, classify_fields]
  constructor
  · show (xs.filter isAlphaItem).map upperStr = (ys.filter isAlphaItem).map upperStr
    rw [filter_alphaItem, filter_alphaItem, h]
  · show generateConcatString (xs.filter isAlphaItem)
        = generateConcatString (ys.filter isAlphaItem)
    rw [filter_alphaItem, filter_alphaItem, h]

/-- Witness for claim C10: two concrete inputs differing in numeric and
special items but with the same alphabetic subsequence get the same
alphabets and concat_string. -/
theorem claim_C10_witness :
    ["a".data, "1".data, "b".data].filter matchesAlpha
        = ["a".data, "$".data, "b".data, "7".data].filter matchesAlpha
      ∧ ((classify ["a".data, "1".data, "b".data]).alphabets
            = (classify ["a".data, "$".data, "b".data, "7".data]).alphabets
          ∧ (classify ["a".data, "1".data, "b".data]).concat_string
            = (classify ["a".data, "$".data, "b".data, "7".data]).concat_string) :=
  ⟨by decide, claim_C10 _ _ (by decide)⟩
